import Mathlib

/-!
Verification of the RestAPI task-tracking service.

The development shallowly embeds the Go sources:
- `src/todo/list.go` (the `todo` package): the `Task` entity and the
  `List` store with its operations.  Go's `map[string]Task` is modelled as
  an association list with unique keys; the mutex is irrelevant in the
  sequential model and every mutating method becomes explicit state
  passing, returning the Go method's result together with the new store.
  Go's `time.Time` is modelled as `Nat` (`0` is Go's zero time; `time.Now()`
  values are passed in as an explicit `now` argument).
- `src/http/server.go` and `src/http/handlers.go` (the `http` package):
  the gorilla/mux routing table (routes tried in registration order,
  first match wins; a route without query constraints matches any query)
  and the HTTP handlers, with responses modelled as a status code plus an
  abstract body.
-/

namespace RestAPI

/-- Go `time.Time`, modelled as a natural number; `0` is the zero time. -/
abbrev Time := Nat

/-- The `Task` struct of `src/todo/list.go` (`todo.Task`). -/
structure Task where
  Title : String
  Description : String
  Completed : Bool
  CreatedAt : Time
  CompletedAt : Option Time
deriving Repr, DecidableEq

/-- The sentinel errors of the `todo` package
(`ErrTaskAlreadyExists`, `ErrTaskNotFound`). -/
inductive TodoError where
  | taskAlreadyExists
  | taskNotFound
deriving Repr, DecidableEq

/-- Go's `map[string]Task`, modelled as an association list.
Keys of a Go map are unique; all reachable stores keep that property. -/
abbrev TaskMap := List (String × Task)

/-- Go map indexing `m[key]` (the `value, ok` form). -/
def TaskMap.lookup : TaskMap → String → Option Task
  | [], _ => none
  | (k, v) :: rest, key => if k = key then some v else TaskMap.lookup rest key

/-- Go map assignment `m[key] = v`: replaces the binding for `key` if
present, otherwise adds it. -/
def TaskMap.insert : TaskMap → String → Task → TaskMap
  | [], key, v => [(key, v)]
  | (k, w) :: rest, key, v =>
      if k = key then (key, v) :: rest else (k, w) :: TaskMap.insert rest key v

/-- Go `delete(m, key)`: removes the binding for `key` (a Go map holds at
most one binding per key). -/
def TaskMap.erase : TaskMap → String → TaskMap
  | [], _ => []
  | (k, w) :: rest, key =>
      if k = key then TaskMap.erase rest key
      else (k, w) :: TaskMap.erase rest key

/-- `todo.NewTask` (`list.go:125-133`): fresh task, not completed,
`CreatedAt` set to the current time, `CompletedAt` nil. -/
def NewTask (title description : String) (now : Time) : Task :=
  { Title := title
    Description := description
    Completed := false
    CreatedAt := now
    CompletedAt := none }

/-- `(*todo.Task).Complete` (`list.go:135-140`): sets `Completed = true`
and `CompletedAt` to the current time. -/
def Task.Complete (t : Task) (now : Time) : Task :=
  { t with Completed := true, CompletedAt := some now }

/-- `(*todo.Task).Uncomplete` (`list.go:142-145`): sets `Completed = false`
and clears `CompletedAt`. -/
def Task.Uncomplete (t : Task) : Task :=
  { t with Completed := false, CompletedAt := none }

/-- `(*todo.List).AddTask` (`list.go:16-28`): fails with
`ErrTaskAlreadyExists` when the title is present, otherwise stores the
task as given.  Returns Go's `error` result paired with the new store. -/
def AddTask (m : TaskMap) (task : Task) : Option TodoError × TaskMap :=
  match m.lookup task.Title with
  | some _ => (some TodoError.taskAlreadyExists, m)
  | none => (none, m.insert task.Title task)

/-- `(*todo.List).GetTask` (`list.go:30-40`): returns the task, or
`ErrTaskNotFound`.  Read-only, so no store is returned. -/
def GetTask (m : TaskMap) (title : String) : Except TodoError Task :=
  match m.lookup title with
  | some t => Except.ok t
  | none => Except.error TodoError.taskNotFound

/-- `(*todo.List).ListTasks` (`list.go:42-52`): copies every entry into a
fresh map and returns it. -/
def ListTasks : TaskMap → TaskMap
  | [] => []
  | (k, v) :: rest => (k, v) :: ListTasks rest

/-- `(*todo.List).ListUncompletedTasks` (`list.go:54-66`): copies the
entries whose `Completed` field is false into a fresh map. -/
def ListUncompletedTasks : TaskMap → TaskMap
  | [] => []
  | (k, v) :: rest =>
      if v.Completed then ListUncompletedTasks rest
      else (k, v) :: ListUncompletedTasks rest

/-- `(*todo.List).CompleteTask` (`list.go:68-82`): looks the task up,
fails with `ErrTaskNotFound` if absent, otherwise stores the completed
task back.  The Go method's return type is `error` only: on success the
caller receives `nil`, not the updated task. -/
def CompleteTask (m : TaskMap) (now : Time) (title : String) :
    Option TodoError × TaskMap :=
  match m.lookup title with
  | none => (some TodoError.taskNotFound, m)
  | some task => (none, m.insert title (task.Complete now))

/-- `(*todo.List).UncompleteTask` (`list.go:84-98`): same shape as
`CompleteTask`, storing the uncompleted task back. -/
def UncompleteTask (m : TaskMap) (title : String) :
    Option TodoError × TaskMap :=
  match m.lookup title with
  | none => (some TodoError.taskNotFound, m)
  | some task => (none, m.insert title task.Uncomplete)

/-- `(*todo.List).DeleteTask` (`list.go:100-111`): fails with
`ErrTaskNotFound` if absent, otherwise deletes the binding. -/
def DeleteTask (m : TaskMap) (title : String) : Option TodoError × TaskMap :=
  match m.lookup title with
  | none => (some TodoError.taskNotFound, m)
  | some _ => (none, m.erase title)

/-! ## HTTP layer (`src/http/server.go`, `src/http/handlers.go`) -/

/-- The six handlers registered in `StartServer` (`server.go:23-28`). -/
inductive HandlerTag where
  | createTasks
  | getTask
  | getAllTasks
  | getAllUncompletedTasks
  | completeTask
  | deleteTask
deriving Repr, DecidableEq

/-- One segment of a gorilla/mux path pattern: a literal, or the `{title}`
variable (which matches exactly one non-empty path segment). -/
inductive Seg where
  | lit (s : String)
  | varTitle
deriving Repr, DecidableEq

def segMatches : Seg → String → Bool
  | Seg.lit s, p => s == p
  | Seg.varTitle, p => p != ""

def patternMatches : List Seg → List String → Bool
  | [], [] => true
  | s :: ps, p :: qs => segMatches s p && patternMatches ps qs
  | _, _ => false

/-- A mux route: method, path pattern, and the required query pairs added
with `.Queries(...)` (empty when the route has no query constraint). -/
structure Route where
  method : String
  pattern : List Seg
  queryPairs : List (String × String)
  handler : HandlerTag
deriving Repr, DecidableEq

/-- An incoming HTTP request: method, path split into segments, and the
query string as key/value pairs. -/
structure Request where
  method : String
  path : List String
  query : List (String × String)
deriving Repr, DecidableEq

/-- A route with `.Queries(k, v)` matches only requests whose query
contains that pair; a route without query constraints matches any query. -/
def queryPairsMatch (required : List (String × String)) (q : List (String × String)) : Bool :=
  required.all (fun kv => q.contains kv)

def routeMatches (req : Request) (r : Route) : Bool :=
  req.method == r.method
    && patternMatches r.pattern req.path
    && queryPairsMatch r.queryPairs req.query

/-- The routing table of `StartServer` (`server.go:23-28`), in registration
order.  gorilla/mux tries routes in the order they were added and the
first match wins. -/
def routerTable : List Route :=
  [ ⟨"POST", [Seg.lit "tasks"], [], HandlerTag.createTasks⟩,
    ⟨"GET", [Seg.lit "tasks", Seg.varTitle], [], HandlerTag.getTask⟩,
    ⟨"GET", [Seg.lit "tasks"], [], HandlerTag.getAllTasks⟩,
    ⟨"GET", [Seg.lit "tasks"], [("completed", "true")], HandlerTag.getAllUncompletedTasks⟩,
    ⟨"PATCH", [Seg.lit "tasks", Seg.varTitle], [], HandlerTag.completeTask⟩,
    ⟨"DELETE", [Seg.lit "tasks", Seg.varTitle], [], HandlerTag.deleteTask⟩ ]

/-- mux dispatch: the handler of the first route in registration order
that matches the request. -/
def dispatch (req : Request) : Option HandlerTag :=
  (routerTable.find? (routeMatches req)).map Route.handler

/-- Abstract HTTP response body: the JSON payloads the handlers write. -/
inductive Body where
  | empty
  | jsonTaskMap (m : TaskMap)
  | jsonTask (t : Task)
  | jsonError (e : TodoError)
deriving Repr, DecidableEq

structure Response where
  status : Nat
  body : Body
deriving Repr, DecidableEq

/-- `HandleGetALLTasks` (`handlers.go:139-150`): 200 with the JSON of the
full task map. -/
def HandleGetALLTasks (store : TaskMap) : Response :=
  { status := 200, body := Body.jsonTaskMap (ListTasks store) }

/-- `HandleGetAllUncompletedTasks` (`handlers.go:166-178`): 200 with the
JSON of the uncompleted-task map. -/
def HandleGetAllUncompletedTasks (store : TaskMap) : Response :=
  { status := 200, body := Body.jsonTaskMap (ListUncompletedTasks store) }

/-- `HandleGetTask` (`handlers.go:98-123`): 200 with the task, 404 on
`ErrTaskNotFound` (500 for any other error, which `GetTask` never
produces). -/
def HandleGetTask (store : TaskMap) (title : String) : Response :=
  match GetTask store title with
  | Except.ok t => { status := 200, body := Body.jsonTask t }
  | Except.error e =>
      if e = TodoError.taskNotFound then { status := 404, body := Body.jsonError e }
      else { status := 500, body := Body.jsonError e }

/-- `HandleDeleteTask` (`handlers.go:259-276`): on `ErrTaskNotFound` a 404
error body, on success the handler returns without writing anything, so
net/http sends the default 200 status with an empty body. -/
def HandleDeleteTask (store : TaskMap) (title : String) : Response × TaskMap :=
  match DeleteTask store title with
  | (some e, m) =>
      if e = TodoError.taskNotFound then
        ({ status := 404, body := Body.jsonError e }, m)
      else ({ status := 500, body := Body.jsonError e }, m)
  | (none, m) => ({ status := 200, body := Body.empty }, m)

/-! ## Reachable store states

The running program only ever mutates the store through the four
operations invoked by the handlers; tasks enter the store exclusively via
`todo.NewTask` (`handlers.go:58`). -/

/-- One store transition of the running program. -/
inductive Step : TaskMap → TaskMap → Prop where
  | add (m : TaskMap) (title description : String) (now : Time) :
      Step m (AddTask m (NewTask title description now)).2
  | complete (m : TaskMap) (now : Time) (title : String) :
      Step m (CompleteTask m now title).2
  | uncomplete (m : TaskMap) (title : String) :
      Step m (UncompleteTask m title).2
  | delete (m : TaskMap) (title : String) :
      Step m (DeleteTask m title).2

/-- Store states reachable from the empty store `NewList` creates
(`list.go:10-14`). -/
inductive Reachable : TaskMap → Prop where
  | empty : Reachable []
  | step {m m' : TaskMap} : Reachable m → Step m m' → Reachable m'

/-- The §3 invariant: `CompletedAt` is present if and only if `Completed`
is true, for every stored task. -/
def InvHolds (m : TaskMap) : Prop :=
  ∀ k t, m.lookup k = some t → t.CompletedAt.isSome = t.Completed

/-- Every task surviving a transition keeps its `CreatedAt`. -/
def PreservesCreatedAt (m m' : TaskMap) : Prop :=
  ∀ k t t', m.lookup k = some t → m'.lookup k = some t' →
    t'.CreatedAt = t.CreatedAt

/-! ## Concrete fixtures for counterexamples and witnesses -/

/-- A completed task (with its `CompletedAt` set). -/
def doneTask : Task :=
  { Title := "a", Description := "d", Completed := true,
    CreatedAt := 1, CompletedAt := some 2 }

/-- An uncompleted task. -/
def pendingTask : Task :=
  { Title := "a", Description := "d", Completed := false,
    CreatedAt := 1, CompletedAt := none }

/-- A task value violating the completed/completedAt invariant, with empty
description and zero creation time. -/
def invalidTask : Task :=
  { Title := "x", Description := "", Completed := true,
    CreatedAt := 0, CompletedAt := none }

/-- A task value that is already completed at creation time. -/
def badTask : Task :=
  { Title := "a", Description := "d", Completed := true,
    CreatedAt := 0, CompletedAt := none }

/-- A store holding exactly the completed task `doneTask`. -/
def storeWithDone : TaskMap := [("a", doneTask)]

/-! ## Helper lemmas about the map model -/

theorem TaskMap.lookup_insert (m : TaskMap) (k key : String) (v : Task) :
    (m.insert k v).lookup key = if k = key then some v else m.lookup key := by
  induction m with
  | nil => simp [TaskMap.insert, TaskMap.lookup]
  | cons hd tl ih =>
      obtain ⟨k0, v0⟩ := hd
      by_cases h0 : k0 = k
      · subst h0
        by_cases h1 : k0 = key <;>
          simp [TaskMap.insert, TaskMap.lookup, h1]
      · by_cases h1 : k0 = key
        · subst h1
          have hk : ¬ k = k0 := fun h => h0 h.symm
          simp [TaskMap.insert, TaskMap.lookup, h0, hk]
        · simp [TaskMap.insert, TaskMap.lookup, h0, h1, ih]

theorem TaskMap.lookup_erase (m : TaskMap) (k key : String) :
    (m.erase k).lookup key = if key = k then none else m.lookup key := by
  induction m with
  | nil => simp [TaskMap.erase, TaskMap.lookup]
  | cons hd tl ih =>
      obtain ⟨k0, v0⟩ := hd
      by_cases h0 : k0 = k
      · subst h0
        by_cases h1 : key = k0
        · subst h1
          simpa [TaskMap.erase, TaskMap.lookup] using ih
        · have hk : ¬ k0 = key := fun h => h1 h.symm
          simpa [TaskMap.erase, TaskMap.lookup, h1, hk] using ih
      · by_cases h1 : k0 = key
        · subst h1
          simp [TaskMap.erase, TaskMap.lookup, h0]
        · simp [TaskMap.erase, TaskMap.lookup, h0, h1]
          exact ih

/-! ## Helper lemmas about the store operations -/

theorem listTasks_eq (m : TaskMap) : ListTasks m = m := by
  induction m with
  | nil => rfl
  | cons hd tl ih =>
      obtain ⟨k, v⟩ := hd
      simp [ListTasks, ih]

theorem listUncompleted_eq_filter (m : TaskMap) :
    ListUncompletedTasks m = m.filter (fun kv => !kv.2.Completed) := by
  induction m with
  | nil => rfl
  | cons hd tl ih =>
      obtain ⟨k, v⟩ := hd
      by_cases h : v.Completed <;>
        simp [ListUncompletedTasks, List.filter_cons, h, ih]

theorem invHolds_step {m m' : TaskMap} (hm : InvHolds m) (hs : Step m m') :
    InvHolds m' := by
  cases hs with
  | add title description now =>
      intro k t hk
      cases hl : m.lookup (NewTask title description now).Title with
      | some t0 =>
          simp only [AddTask, hl] at hk
          exact hm k t hk
      | none =>
          simp only [AddTask, hl] at hk
          rw [TaskMap.lookup_insert] at hk
          by_cases h : (NewTask title description now).Title = k
          · rw [if_pos h] at hk
            cases hk
            rfl
          · rw [if_neg h] at hk
            exact hm k t hk
  | complete now title =>
      intro k t hk
      cases hl : m.lookup title with
      | none =>
          simp only [CompleteTask, hl] at hk
          exact hm k t hk
      | some task =>
          simp only [CompleteTask, hl] at hk
          rw [TaskMap.lookup_insert] at hk
          by_cases h : title = k
          · rw [if_pos h] at hk
            cases hk
            rfl
          · rw [if_neg h] at hk
            exact hm k t hk
  | uncomplete title =>
      intro k t hk
      cases hl : m.lookup title with
      | none =>
          simp only [UncompleteTask, hl] at hk
          exact hm k t hk
      | some task =>
          simp only [UncompleteTask, hl] at hk
          rw [TaskMap.lookup_insert] at hk
          by_cases h : title = k
          · rw [if_pos h] at hk
            cases hk
            rfl
          · rw [if_neg h] at hk
            exact hm k t hk
  | delete title =>
      intro k t hk
      cases hl : m.lookup title with
      | none =>
          simp only [DeleteTask, hl] at hk
          exact hm k t hk
      | some task =>
          simp only [DeleteTask, hl] at hk
          rw [TaskMap.lookup_erase] at hk
          by_cases h : k = title
          · rw [if_pos h] at hk
            cases hk
          · rw [if_neg h] at hk
            exact hm k t hk

theorem step_preservesCreatedAt {m m' : TaskMap} (hs : Step m m') :
    PreservesCreatedAt m m' := by
  cases hs with
  | add title description now =>
      intro k t t' hk hk'
      cases hl : m.lookup (NewTask title description now).Title with
      | some t0 =>
          simp only [AddTask, hl] at hk'
          rw [hk] at hk'
          cases hk'
          rfl
      | none =>
          simp only [AddTask, hl] at hk'
          rw [TaskMap.lookup_insert] at hk'
          by_cases h : (NewTask title description now).Title = k
          · rw [← h, hl] at hk
            cases hk
          · rw [if_neg h, hk] at hk'
            cases hk'
            rfl
  | complete now title =>
      intro k t t' hk hk'
      cases hl : m.lookup title with
      | none =>
          simp only [CompleteTask, hl] at hk'
          rw [hk] at hk'
          cases hk'
          rfl
      | some task =>
          simp only [CompleteTask, hl] at hk'
          rw [TaskMap.lookup_insert] at hk'
          by_cases h : title = k
          · rw [if_pos h] at hk'
            rw [← h, hl] at hk
            cases hk
            cases hk'
            rfl
          · rw [if_neg h, hk] at hk'
            cases hk'
            rfl
  | uncomplete title =>
      intro k t t' hk hk'
      cases hl : m.lookup title with
      | none =>
          simp only [UncompleteTask, hl] at hk'
          rw [hk] at hk'
          cases hk'
          rfl
      | some task =>
          simp only [UncompleteTask, hl] at hk'
          rw [TaskMap.lookup_insert] at hk'
          by_cases h : title = k
          · rw [if_pos h] at hk'
            rw [← h, hl] at hk
            cases hk
            cases hk'
            rfl
          · rw [if_neg h, hk] at hk'
            cases hk'
            rfl
  | delete title =>
      intro k t t' hk hk'
      cases hl : m.lookup title with
      | none =>
          simp only [DeleteTask, hl] at hk'
          rw [hk] at hk'
          cases hk'
          rfl
      | some task =>
          simp only [DeleteTask, hl] at hk'
          rw [TaskMap.lookup_erase] at hk'
          by_cases h : k = title
          · rw [if_pos h] at hk'
            cases hk'
          · rw [if_neg h, hk] at hk'
            cases hk'
            rfl

/-! ## Claim theorems -/

/-- C1: the claim says `GET /tasks?completed=true` answers 200 with the
map of incomplete tasks only.  On the code it fails: `StartServer`
registers the unconstrained `GET /tasks` route before the
`Queries("completed", "true")` route, and gorilla/mux dispatches to the
first match, so the request reaches `HandleGetALLTasks` and the response
carries the full task map.  Concretely, with a store holding one completed
task, the body is the full map while the incomplete-task map is empty. -/
theorem getTasksCompletedTrue_dispatches_full_map :
    dispatch { method := "GET", path := ["tasks"], query := [("completed", "true")] }
      = some HandlerTag.getAllTasks ∧
    HandleGetALLTasks storeWithDone
      = { status := 200, body := Body.jsonTaskMap storeWithDone } ∧
    ListUncompletedTasks storeWithDone = [] :=
  ⟨rfl, rfl, rfl⟩

/-- C2: evaluation of `CompleteTask` at a present title.  The store entry
is updated to `Completed = true` with `CompletedAt` set to the current
time — also when the task was already completed, whose timestamp is
refreshed — but the method's success result is only `none` (Go `nil`):
its return type carries no task value, so the updated task is not
returned to the caller as the claim states. -/
theorem completeTask_updates_store_returns_no_task :
    CompleteTask [("a", pendingTask)] 5 "a"
      = (none, [("a", { pendingTask with Completed := true, CompletedAt := some 5 })]) ∧
    CompleteTask [("a", doneTask)] 9 "a"
      = (none, [("a", { doneTask with Completed := true, CompletedAt := some 9 })]) ∧
    CompleteTask ([] : TaskMap) 5 "a" = (some TodoError.taskNotFound, []) :=
  ⟨rfl, rfl, rfl⟩

/-- C3: the claim says a successful `DELETE /tasks/{title}` answers 204.
On the code it fails: `HandleDeleteTask` returns without writing a status
on success, so net/http sends its default 200.  The body is empty as
claimed. -/
theorem deleteTask_success_responds_200_not_204 :
    dispatch { method := "DELETE", path := ["tasks", "a"], query := [] }
      = some HandlerTag.deleteTask ∧
    HandleDeleteTask storeWithDone "a" = ({ status := 200, body := Body.empty }, []) ∧
    (HandleDeleteTask storeWithDone "a").1.status ≠ 204 :=
  ⟨rfl, rfl, by decide⟩

/-- C4: every store state reachable by the running program (tasks enter
only via `NewTask`) satisfies the completed/completedAt invariant, and no
operation changes the `CreatedAt` of a task that survives it. -/
theorem reachable_invariant_createdAt_immutable (m m' : TaskMap)
    (h : Reachable m) (hs : Step m m') :
    InvHolds m ∧ PreservesCreatedAt m m' := by
  refine ⟨?_, step_preservesCreatedAt hs⟩
  clear hs m'
  induction h with
  | empty =>
      intro k t hk
      cases hk
  | step _ hstep ih => exact invHolds_step ih hstep

theorem reachable_invariant_createdAt_immutable_witness :
    InvHolds ([] : TaskMap) ∧
    PreservesCreatedAt ([] : TaskMap) (AddTask [] (NewTask "a" "d" 1)).2 :=
  reachable_invariant_createdAt_immutable [] _ Reachable.empty (Step.add [] "a" "d" 1)

/-- C5: `AddTask` on a title already present fails with
`ErrTaskAlreadyExists` and returns the store completely unchanged; in
particular the existing record keeps its previous field values. -/
theorem addTask_duplicate_fails_store_unchanged (m : TaskMap) (task t0 : Task)
    (h : m.lookup task.Title = some t0) :
    AddTask m task = (some TodoError.taskAlreadyExists, m) ∧
    (AddTask m task).2.lookup task.Title = some t0 := by
  simp [AddTask, h]

theorem addTask_duplicate_fails_store_unchanged_witness :
    TaskMap.lookup [("a", doneTask)] pendingTask.Title = some doneTask ∧
    (AddTask [("a", doneTask)] pendingTask
        = (some TodoError.taskAlreadyExists, [("a", doneTask)]) ∧
      (AddTask [("a", doneTask)] pendingTask).2.lookup pendingTask.Title = some doneTask) :=
  ⟨rfl, addTask_duplicate_fails_store_unchanged [("a", doneTask)] pendingTask doneTask rfl⟩

/-- C6: on an absent title, `GetTask` fails with `ErrTaskNotFound`, and
`CompleteTask`, `UncompleteTask` and `DeleteTask` fail with
`ErrTaskNotFound` returning the store unchanged (`GetTask` is read-only
by its type). -/
theorem absent_title_notFound_store_unchanged (m : TaskMap) (title : String) (now : Time)
    (h : m.lookup title = none) :
    GetTask m title = Except.error TodoError.taskNotFound ∧
    CompleteTask m now title = (some TodoError.taskNotFound, m) ∧
    UncompleteTask m title = (some TodoError.taskNotFound, m) ∧
    DeleteTask m title = (some TodoError.taskNotFound, m) := by
  simp [GetTask, CompleteTask, UncompleteTask, DeleteTask, h]

theorem absent_title_notFound_store_unchanged_witness :
    TaskMap.lookup storeWithDone "b" = none ∧
    (GetTask storeWithDone "b" = Except.error TodoError.taskNotFound ∧
      CompleteTask storeWithDone 7 "b" = (some TodoError.taskNotFound, storeWithDone) ∧
      UncompleteTask storeWithDone "b" = (some TodoError.taskNotFound, storeWithDone) ∧
      DeleteTask storeWithDone "b" = (some TodoError.taskNotFound, storeWithDone)) :=
  ⟨rfl, absent_title_notFound_store_unchanged storeWithDone "b" 7 rfl⟩

/-- C7 counterexample: the claim quantifies over every task with an
absent title, but `AddTask` stores its argument verbatim, so adding the
already-completed `badTask` to the empty store and reading it back yields
`Completed = true` (and a zero `CreatedAt`), not the `completed = false`
and non-empty `createdAt` the claim asserts for every such task. -/
theorem addTask_arbitrary_task_get_completed_true :
    TaskMap.lookup [] badTask.Title = none ∧
    (AddTask [] badTask).1 = none ∧
    GetTask (AddTask [] badTask).2 badTask.Title = Except.ok badTask ∧
    badTask.Completed = true ∧
    badTask.CreatedAt = 0 :=
  ⟨rfl, rfl, rfl, rfl, rfl⟩

/-- C7 (amended): for a task built by `NewTask` — the only construction
path the program uses — `AddTask` on an absent title succeeds and a
subsequent `GetTask` returns the same title and description with
`Completed = false` and a non-zero `CreatedAt` (given a non-zero clock). -/
theorem addTask_newTask_then_get (m : TaskMap) (title description : String) (now : Time)
    (h : m.lookup title = none) (hnow : now ≠ 0) :
    (AddTask m (NewTask title description now)).1 = none ∧
    GetTask (AddTask m (NewTask title description now)).2 title
      = Except.ok (NewTask title description now) ∧
    (NewTask title description now).Title = title ∧
    (NewTask title description now).Description = description ∧
    (NewTask title description now).Completed = false ∧
    (NewTask title description now).CreatedAt ≠ 0 := by
  refine ⟨?_, ?_, rfl, rfl, rfl, hnow⟩
  · simp [AddTask, NewTask, h]
  · simp [AddTask, NewTask, h, GetTask, TaskMap.lookup_insert]

theorem addTask_newTask_then_get_witness :
    TaskMap.lookup [] "a" = none ∧ (1 : Time) ≠ 0 ∧
    ((AddTask [] (NewTask "a" "d" 1)).1 = none ∧
      GetTask (AddTask [] (NewTask "a" "d" 1)).2 "a" = Except.ok (NewTask "a" "d" 1) ∧
      (NewTask "a" "d" 1).Title = "a" ∧
      (NewTask "a" "d" 1).Description = "d" ∧
      (NewTask "a" "d" 1).Completed = false ∧
      (NewTask "a" "d" 1).CreatedAt ≠ 0) :=
  ⟨rfl, by decide, addTask_newTask_then_get [] "a" "d" 1 rfl (by decide)⟩

/-- C8: for a present title, `CompleteTask` then `GetTask` yields the
task completed with `CompletedAt` set to the current time, and
`UncompleteTask` then `GetTask` yields the task uncompleted with
`CompletedAt` absent. -/
theorem complete_uncomplete_get_roundtrip (m : TaskMap) (title : String) (now : Time)
    (t : Task) (h : m.lookup title = some t) :
    GetTask (CompleteTask m now title).2 title = Except.ok (t.Complete now) ∧
    (t.Complete now).Completed = true ∧
    (t.Complete now).CompletedAt = some now ∧
    GetTask (UncompleteTask m title).2 title = Except.ok t.Uncomplete ∧
    t.Uncomplete.Completed = false ∧
    t.Uncomplete.CompletedAt = none := by
  refine ⟨?_, rfl, rfl, ?_, rfl, rfl⟩
  · simp [CompleteTask, h, GetTask, TaskMap.lookup_insert]
  · simp [UncompleteTask, h, GetTask, TaskMap.lookup_insert]

theorem complete_uncomplete_get_roundtrip_witness :
    TaskMap.lookup [("a", pendingTask)] "a" = some pendingTask ∧
    (GetTask (CompleteTask [("a", pendingTask)] 5 "a").2 "a"
        = Except.ok (pendingTask.Complete 5) ∧
      (pendingTask.Complete 5).Completed = true ∧
      (pendingTask.Complete 5).CompletedAt = some 5 ∧
      GetTask (UncompleteTask [("a", pendingTask)] "a").2 "a"
        = Except.ok pendingTask.Uncomplete ∧
      pendingTask.Uncomplete.Completed = false ∧
      pendingTask.Uncomplete.CompletedAt = none) :=
  ⟨rfl, complete_uncomplete_get_roundtrip [("a", pendingTask)] "a" 5 pendingTask rfl⟩

/-- C9: `ListUncompletedTasks` returns exactly the restriction of
`ListTasks` to entries with `Completed = false`, and both are snapshots
of the store at the moment of the call: the returned maps are fresh
values agreeing with the store state passed in, so no later store
transition can be observed through them (the Go code builds both maps by
copying, `list.go:46-50` and `list.go:58-63`). -/
theorem listUncompleted_restriction_of_snapshot (m : TaskMap) :
    ListUncompletedTasks m = (ListTasks m).filter (fun kv => !kv.2.Completed) ∧
    ListTasks m = m ∧
    (∀ key, (ListTasks m).lookup key = m.lookup key) := by
  refine ⟨?_, listTasks_eq m, ?_⟩
  · rw [listUncompleted_eq_filter, listTasks_eq]
  · intro key
    rw [listTasks_eq]

/-- C10: `AddTask` validates nothing: any task value whose title is
absent — including one with empty fields or `Completed = true` while
`CompletedAt` is absent — is stored verbatim and read back exactly;
the completed/completedAt invariant is enforced only by the `NewTask`
construction path, not by the store. -/
theorem addTask_no_validation_stores_exactly (m : TaskMap) (t : Task)
    (h : m.lookup t.Title = none) :
    (AddTask m t).1 = none ∧
    GetTask (AddTask m t).2 t.Title = Except.ok t ∧
    (∀ title description now,
      ((NewTask title description now).CompletedAt).isSome
        = (NewTask title description now).Completed) := by
  refine ⟨?_, ?_, fun _ _ _ => rfl⟩
  · simp [AddTask, h]
  · simp [AddTask, h, GetTask, TaskMap.lookup_insert]

theorem addTask_no_validation_stores_exactly_witness :
    TaskMap.lookup [] invalidTask.Title = none ∧
    ((AddTask [] invalidTask).1 = none ∧
      GetTask (AddTask [] invalidTask).2 invalidTask.Title = Except.ok invalidTask ∧
      (∀ title description now,
        ((NewTask title description now).CompletedAt).isSome
          = (NewTask title description now).Completed)) :=
  ⟨rfl, addTask_no_validation_stores_exactly [] invalidTask rfl⟩

end RestAPI
